import Mathlib

/-!
Verification development for the MCP proxy's protocol client
(`src/mcpClient.js`): a shallow embedding of the `MCPClient` class —
its SSE aggregation (`handleSSEResponse`), request sending
(`sendRequest`), session handshake (`initialize`), and the helpers
`listTools` / `callTool` — together with theorems settling the spec's
claims about them.

Conventions of the embedding:
* JavaScript values flowing through the client are modelled by the
  inductive type `Json`; JS `undefined` (an absent member) is modelled
  by `Option` at the use sites.
* The host `JSON.parse` is modelled by the executable parser `jsParse`
  (strings with the basic escapes, integer/fraction/exponent numbers as
  rationals; `\u` escapes are not modelled, and the exact message of a
  host `SyntaxError` / `TypeError` is modelled by a fixed string, since
  no behaviour of the client depends on those messages).
* Errors are carried as their message strings, exactly as the source
  constructs them with `new Error(...)`; the spec's taxonomy
  (TransportError / ProtocolError) corresponds to the construction
  sites, which the theorems identify by the exact message.
* Byte streams are modelled as `List Char` chunks; `TextDecoder` with
  `stream: true` makes byte-level decoding chunking-invariant, so the
  character level is the faithful granularity.
-/

set_option maxRecDepth 10000

/-- JSON values (the results of the host `JSON.parse`). Objects keep
their fields in insertion order with distinct keys, as JS objects do. -/
inductive Json where
  | null
  | bool (b : Bool)
  /-- The number `m * 10 ^ e10`, kept in exact decimal form (the client
  never computes with numbers, so float rounding is irrelevant). -/
  | num (m : Int) (e10 : Int)
  | str (s : String)
  | arr (elems : List Json)
  | obj (fields : List (String × Json))

/-- JS member access `v.k`: `some` the member of an object, `none`
(JS `undefined`) otherwise. (The client only accesses members of values
it has already found truthy or JSON-RPC-shaped, so the JS `TypeError`
on `null.k` does not arise inside `lineEffect`.) -/
def Json.get : Json → String → Option Json
  | .obj fs, k => (fs.find? (fun p => p.1 == k)).map (fun p => p.2)
  | _, _ => none

/-- JS truthiness of a value (`if (v)`). `NaN` does not arise because
numbers are rationals here. -/
def Json.truthy : Json → Bool
  | .null => false
  | .bool b => b
  | .num m _ => m != 0
  | .str s => s != ""
  | .arr _ => true
  | .obj _ => true

/-- JS `String(v)` coercion, as performed by the `Error` constructor on
a non-string message. Array joining and JS float formatting are not
replicated (the client only ever builds errors from string messages). -/
def Json.jsString : Json → String
  | .null => "null"
  | .bool true => "true"
  | .bool false => "false"
  | .num m e10 => if e10 = 0 then toString m else toString m ++ "e" ++ toString e10
  | .str s => s
  | .arr _ => ""
  | .obj _ => "[object Object]"

/-- The message of `new Error(e.message || dflt)`: the `message` member
when it is truthy, the fallback otherwise (also when `e` is not an
object, where `e.message` is `undefined`). -/
def jsErrorMessage (e : Json) (dflt : String) : String :=
  match e.get "message" with
  | some m => if m.truthy then m.jsString else dflt
  | none => dflt

/-! ### A model of the host `JSON.parse` -/

/-- JSON insignificant whitespace. -/
def isJsonWs (c : Char) : Bool :=
  c == ' ' || c == '\t' || c == '\n' || c == '\r'

def skipWs (s : List Char) : List Char := s.dropWhile isJsonWs

def digitsToNat (ds : List Char) : Nat :=
  ds.foldl (fun n c => n * 10 + (c.toNat - 48)) 0

def parseDigits (s : List Char) : List Char × List Char :=
  (s.takeWhile Char.isDigit, s.dropWhile Char.isDigit)

/-- A JSON string escape (after the backslash). `\u` escapes are not
modelled. -/
def escChar (e : Char) : Option Char :=
  if e == '\"' then some '\"'
  else if e == '\\' then some '\\'
  else if e == '/' then some '/'
  else if e == 'n' then some '\n'
  else if e == 't' then some '\t'
  else if e == 'r' then some '\r'
  else if e == 'b' then some (Char.ofNat 8)
  else if e == 'f' then some (Char.ofNat 12)
  else none

/-- Parse the body of a JSON string after the opening quote; returns the
content and the remainder after the closing quote. -/
def pStringBody : List Char → Option (List Char × List Char)
  | [] => none
  | c :: cs =>
    if c == '\"' then some ([], cs)
    else if c == '\\' then
      match cs with
      | [] => none
      | e :: cs2 =>
        match escChar e with
        | some d => (pStringBody cs2).map (fun p => (d :: p.1, p.2))
        | none => none
    else (pStringBody cs).map (fun p => (c :: p.1, p.2))

/-- Parse a JSON number (sign, integer part, optional fraction and
exponent) into its exact decimal value `Json.num m e10`. -/
def pNumber (s : List Char) : Option (Json × List Char) :=
  let signed : Bool × List Char :=
    match s with
    | '-' :: t => (true, t)
    | _ => (false, s)
  match parseDigits signed.2 with
  | ([], _) => none
  | (ds, s2) =>
    let fracRes : Option (List Char × List Char) :=
      match s2 with
      | '.' :: t =>
        match parseDigits t with
        | ([], _) => none
        | (fs, s3) => some (fs, s3)
      | _ => some ([], s2)
    match fracRes with
    | none => none
    | some (fs, s3) =>
      let expRes : Option (Int × List Char) :=
        match s3 with
        | c :: t =>
          if c == 'e' || c == 'E' then
            let esigned : Bool × List Char :=
              match t with
              | '+' :: u => (false, u)
              | '-' :: u => (true, u)
              | _ => (false, t)
            match parseDigits esigned.2 with
            | ([], _) => none
            | (es, s4) =>
              some ((if esigned.1 then -(digitsToNat es : Int) else (digitsToNat es : Int)), s4)
          else some (0, s3)
        | [] => some (0, s3)
      match expRes with
      | none => none
      | some (e, s5) =>
        let m : Int := (digitsToNat (ds ++ fs) : Int)
        some (Json.num (if signed.1 then -m else m) (e - (fs.length : Int)), s5)

def expectChars (pat : List Char) (s : List Char) : Option (List Char) :=
  if pat.isPrefixOf s then some (s.drop pat.length) else none

/-- JS-object member update: replace in place when the key exists,
append otherwise. This is both how `JSON.parse` resolves duplicate keys
(last value wins, first position kept) and how the client's header
objects behave. -/
def objUpd {α : Type} (fs : List (String × α)) (k : String) (v : α) : List (String × α) :=
  if fs.any (fun p => p.1 == k) then
    fs.map (fun p => if p.1 == k then (p.1, v) else p)
  else fs ++ [(k, v)]

/-- Parser modes: a value, the elements of an array after `[`, or the
members of an object after the opening brace. -/
inductive PMode where
  | value
  | elems (acc : List Json)
  | membs (acc : List (String × Json))

/-- The fueled JSON parser (structural on the fuel so that it reduces in
the kernel). -/
def pRun : Nat → PMode → List Char → Option (Json × List Char)
  | 0, _, _ => none
  | Nat.succ fuel, PMode.value, s =>
    match skipWs s with
    | [] => none
    | c :: rest =>
      if c == '\"' then
        match pStringBody rest with
        | some p => some (Json.str (String.mk p.1), p.2)
        | none => none
      else if c == Char.ofNat 123 then
        match skipWs rest with
        | d :: r2 =>
          if d == Char.ofNat 125 then some (Json.obj [], r2)
          else pRun fuel (PMode.membs []) rest
        | [] => none
      else if c == '[' then
        match skipWs rest with
        | d :: r2 =>
          if d == ']' then some (Json.arr [], r2)
          else pRun fuel (PMode.elems []) rest
        | [] => none
      else if c == 't' then
        (expectChars ['r', 'u', 'e'] rest).map (fun r => (Json.bool true, r))
      else if c == 'f' then
        (expectChars ['a', 'l', 's', 'e'] rest).map (fun r => (Json.bool false, r))
      else if c == 'n' then
        (expectChars ['u', 'l', 'l'] rest).map (fun r => (Json.null, r))
      else if c == '-' || c.isDigit then
        pNumber (c :: rest)
      else none
  | Nat.succ fuel, PMode.membs acc, s =>
    match skipWs s with
    | [] => none
    | c :: rest =>
      if c == '\"' then
        match pStringBody rest with
        | none => none
        | some kp =>
          match skipWs kp.2 with
          | ':' :: r2 =>
            match pRun fuel PMode.value r2 with
            | none => none
            | some vp =>
              let acc2 := objUpd acc (String.mk kp.1) vp.1
              match skipWs vp.2 with
              | [] => none
              | d :: r4 =>
                if d == ',' then pRun fuel (PMode.membs acc2) r4
                else if d == Char.ofNat 125 then some (Json.obj acc2, r4)
                else none
          | _ => none
      else none
  | Nat.succ fuel, PMode.elems acc, s =>
    match pRun fuel PMode.value s with
    | none => none
    | some vp =>
      match skipWs vp.2 with
      | [] => none
      | d :: r2 =>
        if d == ',' then pRun fuel (PMode.elems (acc ++ [vp.1])) r2
        else if d == ']' then some (Json.arr (acc ++ [vp.1]), r2)
        else none

/-- Model of the host `JSON.parse`: parse one value, allow trailing
whitespace only. -/
def jsParse (s : List Char) : Option Json :=
  match pRun (2 * s.length + 2) PMode.value s with
  | some p => if (skipWs p.2).isEmpty then some p.1 else none
  | none => none

/-! ### The SSE aggregator of `handleSSEResponse` (lines 93-149) -/

/-- The character class removed by JS `String.prototype.trim` (the
ASCII part; exotic Unicode spaces are not modelled). -/
def isTrimWs (c : Char) : Bool :=
  c == ' ' || c == '\t' || c == '\n' || c == '\r' ||
    c == Char.ofNat 11 || c == Char.ofNat 12

/-- JS `.trim()`. -/
def trimChars (l : List Char) : List Char :=
  ((l.dropWhile isTrimWs).reverse.dropWhile isTrimWs).reverse

/-- What one complete SSE line does to the aggregation: terminate with
an error message (`reject`), retain a new candidate result, or be
skipped. -/
inductive LineEff where
  | reject (msg : String)
  | retain (v : Json)
  | skip

def LineEff.isReject : LineEff → Bool
  | .reject _ => true
  | _ => false

def LineEff.isSkip : LineEff → Bool
  | .skip => true
  | _ => false

/-- `parsed.jsonrpc === '2.0'`. -/
def isJsonRpc2 (parsed : Json) : Bool :=
  match parsed.get "jsonrpc" with
  | some (Json.str s) => s == "2.0"
  | _ => false

/-- `if (parsed.result !== undefined) result = parsed.result`. -/
def resultCheck (parsed : Json) : LineEff :=
  match parsed.get "result" with
  | some v => LineEff.retain v
  | none => LineEff.skip

/-- The per-line logic of `handleSSEResponse` (lines 117-139): only
`data: `-prefixed lines are considered, the prefix is stripped and the
rest trimmed, unparseable or non-JSON-RPC payloads are skipped, a truthy
`error` member rejects with `error.message || 'SSE error'`, and a
present `result` member (even `null`) is retained. -/
def lineEffect (line : List Char) : LineEff :=
  if ("data: ".data).isPrefixOf line then
    let data := trimChars (line.drop 6)
    if data.isEmpty then LineEff.skip
    else
      match jsParse data with
      | none => LineEff.skip
      | some parsed =>
        if isJsonRpc2 parsed then
          match parsed.get "error" with
          | some e =>
            if e.truthy then LineEff.reject (jsErrorMessage e "SSE error")
            else resultCheck parsed
          | none => resultCheck parsed
        else LineEff.skip
  else LineEff.skip

/-- Fold the per-line effects over a list of complete lines, stopping at
the first rejection, threading the retained candidate result. -/
def processLines (res : Option Json) : List (List Char) → Except String (Option Json)
  | [] => .ok res
  | l :: ls =>
    match lineEffect l with
    | .reject m => .error m
    | .retain v => processLines (some v) ls
    | .skip => processLines res ls

/-- `buffer.split('\n')` followed by `buffer = lines.pop() || ''`:
the complete lines and the carry-over remainder. -/
def splitLines : List Char → List (List Char) × List Char
  | [] => ([], [])
  | c :: cs =>
    match splitLines cs with
    | (ls, buf) =>
      if c = '\n' then (([] : List Char) :: ls, buf)
      else
        match ls with
        | [] => ([], c :: buf)
        | l :: t => ((c :: l) :: t, buf)

/-- The aggregation state across chunk reads: the carry-over buffer and
the current candidate result (`let buffer = ''; let result = null`). -/
structure AggSt where
  buffer : List Char
  result : Option Json

/-- The stream-end step (lines 104-110): `if (result) resolve(result)
else reject(new Error('No data received from SSE stream'))`. Note the
JS truthiness test: a retained but falsy result (null, false, 0, "")
is indistinguishable from no result. -/
def finishRes : Option Json → Except String Json
  | some v => if v.truthy then .ok v else .error "No data received from SSE stream"
  | none => .error "No data received from SSE stream"

/-- One `processChunk` iteration on a decoded chunk: append to the
buffer, split off the complete lines, fold them, keep the remainder. -/
def feedChunk (st : AggSt) (chunk : List Char) : Except String AggSt :=
  match processLines st.result (splitLines (st.buffer ++ chunk)).1 with
  | .error m => .error m
  | .ok r => .ok ⟨(splitLines (st.buffer ++ chunk)).2, r⟩

/-- The read loop of `handleSSEResponse`: feed each chunk, finish when
the stream is done (the leftover buffer is discarded, as in the
source). -/
def runSSE (st : AggSt) : List (List Char) → Except String Json
  | [] => finishRes st.result
  | c :: cs =>
    match feedChunk st c with
    | .error m => .error m
    | .ok st2 => runSSE st2 cs

/-- `handleSSEResponse`, as a function of the decoded chunk sequence of
the response body. -/
def handleSSEResponse (chunks : List (List Char)) : Except String Json :=
  runSSE ⟨[], none⟩ chunks

/-- Chunking-free description of the aggregation: split the whole byte
stream into complete lines (discarding the unterminated remainder, as
the source does at `done`), fold the line effects, finish. The theorem
`runSSE_eq_runAll` proves `handleSSEResponse` computes exactly this,
whatever the chunk boundaries. -/
def runAll (res : Option Json) (s : List Char) : Except String Json :=
  match processLines res (splitLines s).1 with
  | .error m => .error m
  | .ok r => finishRes r

/-- The byte stream consisting of the given complete lines, each
terminated by a newline. -/
def linesStream (lines : List (List Char)) : List Char :=
  (lines.map (fun l => l ++ ['\n'])).flatten


/-! ### The protocol client (`MCPClient`) -/

/-- A configured server endpoint (`serverConfig`): URL and static
headers. -/
structure ServerConfig where
  url : String
  headers : List (String × String)

/-- The mutable fields of an `MCPClient` instance. -/
structure ClientState where
  url : String
  headers : List (String × String)
  sessionId : Option String
  requestId : Nat

/-- The constructor: `this.sessionId = sessionId; this.requestId = 0`.
`none` models the default `null` argument. -/
def MCPClient.new (cfg : ServerConfig) (sessionId : Option String) : ClientState :=
  ⟨cfg.url, cfg.headers, sessionId, 0⟩

/-- `getNextRequestId` (lines 17-19): `return ++this.requestId`. -/
def getNextRequestId (c : ClientState) : Nat × ClientState :=
  (c.requestId + 1, { c with requestId := c.requestId + 1 })

/-- An HTTP response as observed by the client: status, status text,
response headers, and the body as a sequence of decoded chunks. -/
structure Response where
  status : Nat
  statusText : String
  headers : List (String × String)
  bodyChunks : List (List Char)

/-- ASCII lower-casing (header names are ASCII; the Unicode cases of JS
`toLowerCase` are irrelevant here). -/
def lowerChar (c : Char) : Char :=
  if c.isUpper then Char.ofNat (c.toNat + 32) else c

def lowerStr (s : String) : String :=
  String.mk (s.data.map lowerChar)

/-- `Headers.prototype.get`: case-insensitive header lookup, `none` for
JS `null`. -/
def headerGet (hs : List (String × String)) (name : String) : Option String :=
  (hs.find? (fun p => lowerStr p.1 == lowerStr name)).map (fun p => p.2)

/-- `response.ok`: status in the inclusive range 200-299. -/
def Response.ok (r : Response) : Bool :=
  decide (200 ≤ r.status) && decide (r.status ≤ 299)

/-- The full decoded body, as read by `response.text()` /
`response.json()`. -/
def Response.textChars (r : Response) : List Char :=
  r.bodyChunks.flatten

/-- Does `pat` occur as a contiguous run inside `s`? -/
def listIsInfix (pat : List Char) : List Char → Bool
  | [] => pat.isEmpty
  | c :: rest => pat.isPrefixOf (c :: rest) || listIsInfix pat rest

/-- JS `String.prototype.includes`. -/
def strContains (s pat : String) : Bool :=
  listIsInfix pat.data s.data

/-- `contentType && contentType.includes('text/event-stream')`. -/
def Response.isSSE (r : Response) : Bool :=
  match headerGet r.headers "content-type" with
  | some ct => strContains ct "text/event-stream"
  | none => false

/-- The JS object built from a list of entries (an object literal with
spreads): later entries overwrite earlier ones in place. -/
def objOf (entries : List (String × String)) : List (String × String) :=
  entries.foldl (fun o p => objUpd o p.1 p.2) []

/-- Exact-key member lookup on a JS object (JS object keys are
case-sensitive, unlike `Headers.get`). -/
def objGet {α : Type} (fs : List (String × α)) (k : String) : Option α :=
  (fs.find? (fun p => p.1 == k)).map (fun p => p.2)

/-- First-defined choice between two optional values (used to state
precedence between header sources). -/
def optOr {α : Type} : Option α → Option α → Option α
  | some v, _ => some v
  | none, b => b

/-- The header object of `sendRequest` (lines 40-48):
`{'Content-Type': 'application/json', ...this.headers}`, then — after
the spread — `requestHeaders['Mcp-Session-Id'] = this.sessionId` when
the session id is truthy. -/
def requestHeaders (c : ClientState) : List (String × String) :=
  let base := objOf (("Content-Type", "application/json") :: c.headers)
  match c.sessionId with
  | some s => if s != "" then objUpd base "Mcp-Session-Id" s else base
  | none => base

/-- The JSON-RPC request envelope
`{jsonrpc: '2.0', id, method, params}`. -/
def requestEnvelope (rid : Nat) (method : String) (params : Json) : Json :=
  Json.obj [("jsonrpc", Json.str "2.0"), ("id", Json.num (rid : Int) 0),
    ("method", Json.str method), ("params", params)]

/-- Stand-ins for host exception messages the model does not replicate
verbatim: the `SyntaxError` of `response.json()` on an unparseable body,
and the `TypeError` of accessing `.error` on a `null` body. No client
behaviour depends on their exact text. -/
def hostJsonErrorMsg : String := "Unexpected token in JSON"

def hostTypeErrorMsg : String := "Cannot read properties of null"

/-- Everything observable about one `sendRequest` call: the updated
client state, the request id it consumed, the headers and JSON-RPC
envelope passed to `fetch`, the returned value (`.ok`, with `none` for
JS `undefined`) or thrown error message (`.error`), and the diagnostic
`console.error` output of the non-2xx branch (the only logging the
claims are about). -/
structure SendOutcome where
  state : ClientState
  reqId : Nat
  sentHeaders : List (String × String)
  sentBody : Json
  result : Except String (Option Json)
  log : List String

/-- `sendRequest` (lines 24-87), as a function of the response the
`fetch` resolves with. The `try/catch` wraps every failure in
`MCP request failed: <message>`. -/
def sendRequest (c : ClientState) (method : String) (params : Json) (resp : Response) : SendOutcome :=
  let idc := getNextRequestId c
  let hs := requestHeaders c
  let body := requestEnvelope idc.1 method params
  let rl : Except String (Option Json) × List String :=
    if resp.isSSE then
      match handleSSEResponse resp.bodyChunks with
      | .ok v => (.ok (some v), [])
      | .error m => (.error ("MCP request failed: " ++ m), [])
    else if !resp.ok then
      (.error ("MCP request failed: " ++ ("HTTP " ++ toString resp.status ++ ": " ++ resp.statusText)),
        ("[MCP] HTTP " ++ toString resp.status ++ ": " ++ resp.statusText) ::
          (if resp.textChars.isEmpty then []
            else ["[MCP] Error response: " ++ String.mk (resp.textChars.take 500)]))
    else
      match jsParse resp.textChars with
      | none => (.error ("MCP request failed: " ++ hostJsonErrorMsg), [])
      | some j =>
        match j with
        | Json.null => (.error ("MCP request failed: " ++ hostTypeErrorMsg), [])
        | _ =>
          match j.get "error" with
          | some e =>
            if e.truthy then
              (.error ("MCP request failed: " ++ jsErrorMessage e "Unknown MCP error"), [])
            else (.ok (j.get "result"), [])
          | none => (.ok (j.get "result"), [])
  ⟨idc.2, idc.1, hs, body, rl.1, rl.2⟩

/-- Lines 181-188 of `initialize`: the session id is overwritten by a
truthy `mcp-session-id` response header and kept otherwise. -/
def capturedSessionId (old : Option String) (resp : Response) : Option String :=
  match headerGet resp.headers "mcp-session-id" with
  | some s => if s != "" then some s else old
  | none => old

/-- The observables of one `initialize()` call; on success the result
pairs the parsed `result` member with `this.sessionId`, exactly the
`{result, sessionId}` the source returns. -/
structure InitOutcome where
  state : ClientState
  reqId : Nat
  sentHeaders : List (String × String)
  sentBody : Json
  result : Except String (Option Json × Option String)
  log : List String

/-- `initialize` (lines 155-225). Unlike `sendRequest` it has no
`try/catch`, so errors propagate unwrapped; the session header is
captured before the body is dispatched on; the headers sent never
include a session header; the fire-and-forget
`notifications/initialized` POST swallows its own errors and touches no
client state, so it contributes nothing observable here. -/
def initializeCall (c : ClientState) (resp : Response) : InitOutcome :=
  let idc := getNextRequestId c
  let c2 : ClientState := { idc.2 with sessionId := capturedSessionId c.sessionId resp }
  let hs := objOf (("Content-Type", "application/json") :: c.headers)
  let body := requestEnvelope idc.1 "initialize"
    (Json.obj [("protocolVersion", Json.str "2025-06-18")])
  let rl : Except String (Option Json × Option String) × List String :=
    if resp.isSSE then
      match handleSSEResponse resp.bodyChunks with
      | .ok v => (.ok (some v, c2.sessionId), [])
      | .error m => (.error m, [])
    else if !resp.ok then
      (.error ("HTTP " ++ toString resp.status ++ ": " ++ resp.statusText),
        ("[MCP] HTTP " ++ toString resp.status ++ ": " ++ resp.statusText) ::
          (if resp.textChars.isEmpty then []
            else ["[MCP] Error response: " ++ String.mk (resp.textChars.take 500)]))
    else
      match jsParse resp.textChars with
      | none => (.error hostJsonErrorMsg, [])
      | some j =>
        match j with
        | Json.null => (.error hostTypeErrorMsg, [])
        | _ =>
          match j.get "error" with
          | some e =>
            if e.truthy then (.error (jsErrorMessage e "Unknown MCP error"), [])
            else (.ok (j.get "result", c2.sessionId), [])
          | none => (.ok (j.get "result", c2.sessionId), [])
  ⟨c2, idc.1, hs, body, rl.1, rl.2⟩

/-- `listTools` (lines 255-258): `cursor ? { cursor } : {}`. -/
def listTools (c : ClientState) (cursor : Option String) (resp : Response) : SendOutcome :=
  let params : Json :=
    match cursor with
    | some s => if s != "" then Json.obj [("cursor", Json.str s)] else Json.obj []
    | none => Json.obj []
  sendRequest c "tools/list" params resp

/-- `callTool` (lines 263-269): `{ name, arguments: args }`. -/
def callTool (c : ClientState) (toolName : String) (args : Json) (resp : Response) : SendOutcome :=
  sendRequest c "tools/call" (Json.obj [("name", Json.str toolName), ("arguments", args)]) resp

/-- One request-sending call on the client, with the response the
upstream answers with. -/
inductive ClientCall where
  | initCall (resp : Response)
  | listToolsCall (cursor : Option String) (resp : Response)
  | callToolCall (toolName : String) (args : Json) (resp : Response)

/-- Run a sequence of calls on one client instance, collecting the
request ids each call stamps into its envelope (failures included —
the id is consumed before the outcome is known). -/
def runCalls (c : ClientState) : List ClientCall → ClientState × List Nat
  | [] => (c, [])
  | call :: rest =>
    let step : ClientState × Nat :=
      match call with
      | .initCall r => ((initializeCall c r).state, (initializeCall c r).reqId)
      | .listToolsCall cur r => ((listTools c cur r).state, (listTools c cur r).reqId)
      | .callToolCall n a r => ((callTool c n a r).state, (callTool c n a r).reqId)
    let next := runCalls step.1 rest
    (next.1, step.2 :: next.2)

/-! ### Concrete data used to evaluate the model on closed inputs -/

def sseResultLine : List Char :=
  "data: \x7b\"jsonrpc\":\"2.0\",\"id\":2,\"result\":\x7b\"ok\":true\x7d\x7d".data

def sseErrorLine : List Char :=
  "data: \x7b\"jsonrpc\":\"2.0\",\"id\":2,\"error\":\x7b\"message\":\"boom\"\x7d\x7d".data

def sseNullResultLine : List Char :=
  "data: \x7b\"jsonrpc\":\"2.0\",\"id\":1,\"result\":null\x7d".data

def sseProgressLine : List Char :=
  "data: \x7b\"jsonrpc\":\"2.0\",\"id\":1,\"result\":\x7b\"step\":1\x7d\x7d".data

def okJson : Json := Json.obj [("ok", Json.bool true)]

def baseConfig : ServerConfig := ⟨"http://upstream.example/mcp", []⟩

def freshClient : ClientState := MCPClient.new baseConfig none

def preSessionClient : ClientState := MCPClient.new baseConfig (some "caller-supplied-session")

def clashClient : ClientState :=
  MCPClient.new ⟨"http://upstream.example/mcp", [("Mcp-Session-Id", "configured-value")]⟩
    (some "captured-session")

/-- SSE lines none of which is a result- or error-carrying JSON-RPC 2.0
envelope: a comment, a non-`data:` field, a non-JSON payload, and a
JSON payload without the 2.0 marker. -/
def nonRpcLines : List (List Char) :=
  [": keep-alive".data, "event: message".data, "data: ping".data,
    "data: \x7b\"jsonrpc\":\"1.0\",\"result\":1\x7d".data]

/-- An SSE response whose stream carries a result event and then an
error event (the spec's `boom` scenario). -/
def sseBoomResponse : Response :=
  ⟨200, "OK", [("content-type", "text/event-stream")],
    [linesStream [sseResultLine, sseErrorLine]]⟩

/-- A non-2xx JSON response with a body. -/
def plainErrorResponse : Response :=
  ⟨500, "Internal Server Error", [("Content-Type", "application/json")],
    ["upstream diagnostic body".data]⟩

/-- A 2xx JSON response carrying no session header. -/
def noSessionJsonResponse : Response :=
  ⟨200, "OK", [("content-type", "application/json")],
    ["\x7b\"jsonrpc\":\"2.0\",\"id\":1,\"result\":\x7b\x7d\x7d".data]⟩

/-- A 2xx JSON response carrying a session header (odd case on the
wire; `Headers.get` is case-insensitive). -/
def sessionJsonResponse : Response :=
  ⟨200, "OK", [("Mcp-Session-Id", "sess-12345"), ("content-type", "application/json")],
    ["\x7b\"jsonrpc\":\"2.0\",\"id\":1,\"result\":\x7b\x7d\x7d".data]⟩

/-- A failing (non-2xx) response that nevertheless carries a session
header. -/
def sessionErrorResponse : Response :=
  ⟨500, "Internal Server Error",
    [("mcp-session-id", "sess-12345"), ("content-type", "application/json")],
    ["upstream failure detail".data]⟩

/-! ### Structural lemmas about line splitting and line folding -/

theorem splitLines_no_newline (s : List Char) (h : '\n' ∉ s) : splitLines s = ([], s) := by
  induction s with
  | nil => rfl
  | cons c cs ih =>
    have hc : ¬ c = '\n' := fun hh => h (hh ▸ List.mem_cons_self c cs)
    have ihs := ih (fun hm => h (List.mem_cons_of_mem _ hm))
    simp [splitLines, ihs, hc]

theorem splitLines_buf (s : List Char) : '\n' ∉ (splitLines s).2 := by
  induction s with
  | nil => simp [splitLines]
  | cons c cs ih =>
    rcases h1 : splitLines cs with ⟨ls, buf⟩
    rw [h1] at ih
    by_cases hc : c = '\n'
    · simp [splitLines, h1, hc, ih]
    · cases ls with
      | nil => simp [splitLines, h1, hc, ih, Ne.symm hc]
      | cons l t => simp [splitLines, h1, hc, ih]

theorem splitLines_cons_newline (cs : List Char) :
    splitLines ('\n' :: cs) = ([] :: (splitLines cs).1, (splitLines cs).2) := by
  rcases h : splitLines cs with ⟨ls, buf⟩
  simp [splitLines, h]

theorem splitLines_cons_nil (c : Char) (cs : List Char) (hc : ¬ c = '\n')
    (h : (splitLines cs).1 = []) :
    splitLines (c :: cs) = ([], c :: (splitLines cs).2) := by
  rcases h1 : splitLines cs with ⟨ls, buf⟩
  rw [h1] at h
  simp only at h
  subst h
  simp [splitLines, h1, hc]

theorem splitLines_cons_line (c : Char) (cs : List Char) (l : List Char) (t : List (List Char))
    (hc : ¬ c = '\n') (h : (splitLines cs).1 = l :: t) :
    splitLines (c :: cs) = ((c :: l) :: t, (splitLines cs).2) := by
  rcases h1 : splitLines cs with ⟨ls, buf⟩
  rw [h1] at h
  simp only at h
  subst h
  simp [splitLines, h1, hc]

theorem splitLines_append (a b : List Char) :
    splitLines (a ++ b) =
      ((splitLines a).1 ++ (splitLines ((splitLines a).2 ++ b)).1,
        (splitLines ((splitLines a).2 ++ b)).2) := by
  induction a with
  | nil => simp [splitLines]
  | cons c a' ih =>
    by_cases hc : c = '\n'
    · subst hc
      rw [List.cons_append, splitLines_cons_newline, splitLines_cons_newline, ih]
      simp
    · cases h1 : (splitLines a').1 with
      | nil =>
        rw [List.cons_append, splitLines_cons_nil c a' hc h1]
        have hfst : (splitLines (a' ++ b)).1 = (splitLines ((splitLines a').2 ++ b)).1 := by
          rw [ih, h1, List.nil_append]
        have hsnd : (splitLines (a' ++ b)).2 = (splitLines ((splitLines a').2 ++ b)).2 := by
          rw [ih]
        rw [List.nil_append, List.cons_append]
        cases h2 : (splitLines ((splitLines a').2 ++ b)).1 with
        | nil =>
          rw [splitLines_cons_nil c (a' ++ b) hc (hfst.trans h2),
            splitLines_cons_nil c ((splitLines a').2 ++ b) hc h2, hsnd]
        | cons l t =>
          rw [splitLines_cons_line c (a' ++ b) l t hc (hfst.trans h2),
            splitLines_cons_line c ((splitLines a').2 ++ b) l t hc h2, hsnd]
      | cons l t =>
        rw [List.cons_append, splitLines_cons_line c a' l t hc h1]
        have hfst : (splitLines (a' ++ b)).1 = l :: (t ++ (splitLines ((splitLines a').2 ++ b)).1) := by
          rw [ih, h1, List.cons_append]
        have hsnd : (splitLines (a' ++ b)).2 = (splitLines ((splitLines a').2 ++ b)).2 := by
          rw [ih]
        rw [splitLines_cons_line c (a' ++ b) _ _ hc hfst, hsnd]
        simp

theorem splitLines_single_line (l : List Char) (s : List Char) (h : '\n' ∉ l) :
    splitLines (l ++ '\n' :: s) = (l :: (splitLines s).1, (splitLines s).2) := by
  induction l with
  | nil => simp [splitLines]
  | cons c l' ih =>
    have hc : ¬ c = '\n' := fun hh => h (hh ▸ List.mem_cons_self c l')
    have ihs := ih (fun hm => h (List.mem_cons_of_mem _ hm))
    simp [splitLines, ihs, hc]

theorem splitLines_linesStream (lines : List (List Char)) (h : ∀ l ∈ lines, '\n' ∉ l) :
    splitLines (linesStream lines) = (lines, []) := by
  induction lines with
  | nil => simp [linesStream, splitLines]
  | cons l rest ih =>
    have hstream : linesStream (l :: rest) = l ++ '\n' :: linesStream rest := by
      simp [linesStream]
    rw [hstream, splitLines_single_line l _ (h l (List.mem_cons_self l rest)),
      ih (fun x hx => h x (List.mem_cons_of_mem _ hx))]

theorem processLines_append (res : Option Json) (l1 l2 : List (List Char)) :
    processLines res (l1 ++ l2) =
      match processLines res l1 with
      | .error m => .error m
      | .ok r => processLines r l2 := by
  induction l1 generalizing res with
  | nil => simp [processLines]
  | cons l ls ih =>
    simp only [List.cons_append, processLines]
    cases lineEffect l <;> simp [ih]

theorem processLines_ok_of_no_reject (ls : List (List Char)) (res : Option Json)
    (h : ∀ l ∈ ls, (lineEffect l).isReject = false) :
    ∃ r, processLines res ls = .ok r := by
  induction ls generalizing res with
  | nil => exact ⟨res, rfl⟩
  | cons l t ih =>
    have hl := h l (List.mem_cons_self l t)
    have ht : ∀ x ∈ t, (lineEffect x).isReject = false :=
      fun x hx => h x (List.mem_cons_of_mem _ hx)
    cases he : lineEffect l with
    | reject m => rw [he] at hl; simp [LineEff.isReject] at hl
    | retain v => simpa [processLines, he] using ih (some v) ht
    | skip => simpa [processLines, he] using ih res ht

theorem processLines_all_skip (ls : List (List Char)) (res : Option Json)
    (h : ∀ l ∈ ls, (lineEffect l).isSkip = true) :
    processLines res ls = .ok res := by
  induction ls with
  | nil => rfl
  | cons l t ih =>
    have hl := h l (List.mem_cons_self l t)
    cases he : lineEffect l with
    | reject m => rw [he] at hl; simp [LineEff.isSkip] at hl
    | retain v => rw [he] at hl; simp [LineEff.isSkip] at hl
    | skip =>
      rw [processLines, he]
      exact ih (fun x hx => h x (List.mem_cons_of_mem _ hx))

theorem linesStream_append (a b : List (List Char)) :
    linesStream (a ++ b) = linesStream a ++ linesStream b := by
  simp [linesStream]

/-- The central fact about the read loop: feeding any chunk sequence is
the same as running on the concatenated byte stream. In particular the
aggregation result is invariant under re-chunking of the same stream. -/
theorem runSSE_eq_runAll (chunks : List (List Char)) (st : AggSt) (h : '\n' ∉ st.buffer) :
    runSSE st chunks = runAll st.result (st.buffer ++ chunks.flatten) := by
  induction chunks generalizing st with
  | nil =>
    simp [runSSE, runAll, splitLines_no_newline _ h, processLines, List.flatten]
  | cons c cs ih =>
    rcases st with ⟨buf, res⟩
    simp only [List.flatten_cons] at *
    have hassoc : buf ++ (c ++ cs.flatten) = (buf ++ c) ++ cs.flatten := by
      simp [List.append_assoc]
    rw [hassoc]
    have happ := splitLines_append (buf ++ c) cs.flatten
    rcases h1 : splitLines (buf ++ c) with ⟨L1, B1⟩
    rw [h1] at happ
    have hB1 : '\n' ∉ B1 := by
      have := splitLines_buf (buf ++ c)
      rw [h1] at this
      exact this
    simp only [runSSE, feedChunk, h1]
    rw [runAll, happ]
    simp only []
    rw [processLines_append]
    cases hp : processLines res L1 with
    | error m => simp
    | ok r =>
      simp only []
      have := ih ⟨B1, r⟩ hB1
      simp only [runSSE] at this ⊢
      rw [this, runAll]

/-- `handleSSEResponse` computes the chunking-free aggregation of the
concatenated stream. -/
theorem handleSSEResponse_eq_runAll (chunks : List (List Char)) :
    handleSSEResponse chunks = runAll none chunks.flatten := by
  simpa [handleSSEResponse] using runSSE_eq_runAll chunks ⟨[], none⟩ (by simp)

/-! ### Lemmas about JS-object updates and the request headers -/

theorem objGet_nil {α : Type} (k : String) : objGet ([] : List (String × α)) k = none := rfl

theorem any_eq_isSome_objGet {α : Type} (o : List (String × α)) (a : String) :
    (o.any (fun p => p.1 == a)) = (objGet o a).isSome := by
  induction o with
  | nil => rfl
  | cons p o' ih =>
    by_cases h : p.1 = a
    · simp [objGet, List.find?, h]
    · have hb : (p.1 == a) = false := by simp [h]
      simp [objGet, List.find?, hb, List.any_cons] at *
      exact ih

theorem objGet_cons {α : Type} (p : String × α) (o : List (String × α)) (k : String) :
    objGet (p :: o) k = if p.1 = k then some p.2 else objGet o k := by
  by_cases h : p.1 = k
  · have hb : (p.1 == k) = true := by simp [h]
    simp [objGet, List.find?, hb, h]
  · have hb : (p.1 == k) = false := beq_eq_false_iff_ne.mpr h
    simp [objGet, List.find?, hb, h]

theorem objGet_map_upd {α : Type} (o : List (String × α)) (a k : String) (b : α) :
    objGet (o.map (fun p => if p.1 = a then (p.1, b) else p)) k =
      if k = a then (objGet o a).map (fun _ => b) else objGet o k := by
  induction o with
  | nil => simp [objGet]
  | cons p o' ih =>
    rw [List.map_cons]
    by_cases hpa : p.1 = a
    · rw [if_pos hpa]
      by_cases hka : k = a
      · subst hka
        simp [objGet_cons, hpa, ih]
      · have hak : ¬ a = k := fun h => hka h.symm
        simp [objGet_cons, hpa, hka, hak, ih]
    · rw [if_neg hpa]
      by_cases hka : k = a
      · subst hka
        simp [objGet_cons, hpa, ih]
      · by_cases hpk : p.1 = k <;> simp [objGet_cons, hpa, hka, hpk, ih]

theorem objGet_append_single {α : Type} (o : List (String × α)) (a k : String) (b : α) :
    objGet (o ++ [(a, b)]) k =
      optOr (objGet o k) (if k = a then some b else none) := by
  induction o with
  | nil =>
    by_cases hka : k = a
    · subst hka
      simp [objGet_cons, objGet, optOr]
    · have hak : ¬ a = k := fun h => hka h.symm
      simp [objGet_cons, objGet, optOr, hka, hak]
  | cons p o' ih =>
    by_cases hpk : p.1 = k <;> simp [objGet_cons, hpk, ih, optOr]

theorem objGet_objUpd {α : Type} (o : List (String × α)) (a k : String) (b : α) :
    objGet (objUpd o a b) k = if k = a then some b else objGet o k := by
  unfold objUpd
  have hfeq : (fun (p : String × α) => if p.1 == a then (p.1, b) else p) =
      (fun (p : String × α) => if p.1 = a then (p.1, b) else p) := by
    funext p
    by_cases h : p.1 = a <;> simp [h]
  by_cases h : o.any (fun p => p.1 == a)
  · rw [if_pos h, hfeq, objGet_map_upd]
    rw [any_eq_isSome_objGet] at h
    by_cases hka : k = a
    · rcases ho : objGet o a with _ | v
      · rw [ho] at h; simp at h
      · simp [hka, ho]
    · simp [hka]
  · rw [if_neg h, objGet_append_single]
    rw [any_eq_isSome_objGet] at h
    have ho : objGet o a = none := by
      rcases ho : objGet o a with _ | v
      · rfl
      · rw [ho] at h; simp at h
    by_cases hka : k = a
    · subst hka; simp [ho, optOr]
    · rcases hk : objGet o k with _ | v <;> simp [optOr, hka]

theorem objGet_foldl_upd (l : List (String × String)) (o : List (String × String)) (k : String) :
    objGet (l.foldl (fun acc p => objUpd acc p.1 p.2) o) k =
      optOr (objGet (objOf l) k) (objGet o k) := by
  induction l generalizing o with
  | nil => simp [objOf, objGet, optOr]
  | cons p l' ih =>
    rw [List.foldl_cons, ih]
    have hr : objOf (p :: l') = l'.foldl (fun acc q => objUpd acc q.1 q.2) (objUpd [] p.1 p.2) := by
      simp [objOf]
    rw [hr, ih (objUpd [] p.1 p.2)]
    rcases hl : objGet (objOf l') k with _ | v
    · simp only [optOr]
      rw [objGet_objUpd, objGet_objUpd]
      by_cases hk : k = p.1 <;> simp [hk, objGet, optOr]
    · simp [optOr]

theorem objGet_objOf_cons (p : String × String) (l : List (String × String)) (k : String) :
    objGet (objOf (p :: l)) k =
      optOr (objGet (objOf l) k) (if k = p.1 then some p.2 else none) := by
  have hr : objOf (p :: l) = l.foldl (fun acc q => objUpd acc q.1 q.2) (objUpd [] p.1 p.2) := by
    simp [objOf]
  rw [hr, objGet_foldl_upd, objGet_objUpd]
  simp [objGet]

/-- With a truthy session id, the session header sent is that id —
whatever the configured headers say. -/
theorem requestHeaders_session (c : ClientState) (s : String)
    (hc : c.sessionId = some s) (hs : s ≠ "") :
    objGet (requestHeaders c) "Mcp-Session-Id" = some s := by
  have ht : (s != "") = true := by simp [hs]
  simp only [requestHeaders, hc, ht, if_true]
  rw [objGet_objUpd]
  simp

/-- With no session id, the session header is exactly whatever the
configured headers provide (none, if they do not configure one). -/
theorem requestHeaders_no_session (c : ClientState) (hc : c.sessionId = none) :
    objGet (requestHeaders c) "Mcp-Session-Id" =
      objGet (objOf c.headers) "Mcp-Session-Id" := by
  simp only [requestHeaders, hc]
  rw [objGet_objOf_cons]
  have hne : ¬ ("Mcp-Session-Id" : String) = "Content-Type" := by decide
  rcases h : objGet (objOf c.headers) "Mcp-Session-Id" with _ | v <;> simp [optOr, hne]

/-- The `Content-Type` actually sent: the configured one when present
(exact key), the fixed `application/json` otherwise; the session-header
assignment never touches it. -/
theorem requestHeaders_contentType (c : ClientState) :
    objGet (requestHeaders c) "Content-Type" =
      optOr (objGet (objOf c.headers) "Content-Type") (some "application/json") := by
  have hbase : objGet (objOf (("Content-Type", "application/json") :: c.headers)) "Content-Type" =
      optOr (objGet (objOf c.headers) "Content-Type") (some "application/json") := by
    rw [objGet_objOf_cons]
    rcases h : objGet (objOf c.headers) "Content-Type" with _ | v <;> simp [optOr]
  rcases hcs : c.sessionId with _ | s
  · simp only [requestHeaders, hcs]
    exact hbase
  · by_cases hs : (s != "") = true
    · simp only [requestHeaders, hcs, hs, if_true]
      rw [objGet_objUpd]
      have hne : ¬ ("Content-Type" : String) = "Mcp-Session-Id" := by decide
      rw [if_neg hne, hbase]
    · have hs' : (s != "") = false := by
        rcases h : s != ""
        · rfl
        · exact absurd h hs
      simp only [requestHeaders, hcs, hs', if_false]
      exact hbase

/-! ### Projection lemmas for the client operations -/

theorem sendRequest_reqId (c : ClientState) (m : String) (p : Json) (r : Response) :
    (sendRequest c m p r).reqId = c.requestId + 1 := rfl

theorem sendRequest_state_requestId (c : ClientState) (m : String) (p : Json) (r : Response) :
    (sendRequest c m p r).state.requestId = c.requestId + 1 := rfl

theorem sendRequest_state_sessionId (c : ClientState) (m : String) (p : Json) (r : Response) :
    (sendRequest c m p r).state.sessionId = c.sessionId := rfl

theorem sendRequest_sentHeaders (c : ClientState) (m : String) (p : Json) (r : Response) :
    (sendRequest c m p r).sentHeaders = requestHeaders c := rfl

theorem initializeCall_reqId (c : ClientState) (r : Response) :
    (initializeCall c r).reqId = c.requestId + 1 := rfl

theorem initializeCall_state_requestId (c : ClientState) (r : Response) :
    (initializeCall c r).state.requestId = c.requestId + 1 := rfl

theorem initializeCall_state_sessionId (c : ClientState) (r : Response) :
    (initializeCall c r).state.sessionId = capturedSessionId c.sessionId r := rfl

theorem initializeCall_state_headers (c : ClientState) (r : Response) :
    (initializeCall c r).state.headers = c.headers := rfl

theorem listTools_reqId (c : ClientState) (cur : Option String) (r : Response) :
    (listTools c cur r).reqId = c.requestId + 1 := rfl

theorem listTools_state_requestId (c : ClientState) (cur : Option String) (r : Response) :
    (listTools c cur r).state.requestId = c.requestId + 1 := rfl

theorem callTool_reqId (c : ClientState) (n : String) (a : Json) (r : Response) :
    (callTool c n a r).reqId = c.requestId + 1 := rfl

theorem callTool_state_requestId (c : ClientState) (n : String) (a : Json) (r : Response) :
    (callTool c n a r).state.requestId = c.requestId + 1 := rfl

/-- The aggregation of a stream of complete lines with no
error-carrying envelope before the last line, which retains `v`:
the candidate result at stream end is `v`. -/
theorem runAll_last_retain (pre : List (List Char)) (lst : List Char) (v : Json)
    (hnl : ∀ l ∈ pre, '\n' ∉ l) (hnll : '\n' ∉ lst)
    (hnoerr : ∀ l ∈ pre, (lineEffect l).isReject = false)
    (hlast : lineEffect lst = .retain v) :
    runAll none (linesStream (pre ++ [lst])) = finishRes (some v) := by
  have hall : ∀ l ∈ pre ++ [lst], '\n' ∉ l := by
    intro l hl
    rcases List.mem_append.mp hl with h | h
    · exact hnl l h
    · rw [List.mem_singleton] at h
      subst h
      exact hnll
  rw [runAll, splitLines_linesStream _ hall]
  rcases processLines_ok_of_no_reject pre none hnoerr with ⟨r, hr⟩
  rw [processLines_append, hr]
  simp [processLines, hlast]

/-! ### Claims about the SSE aggregation -/

/-- C1 counterexample: the claim quantifies over streams whose last
line is a result-bearing envelope, with no constraint on earlier
envelopes. A stream whose first envelope carries an error and whose
last envelope carries `result: {"ok": true}` ends in a retained result,
yet the aggregation reports the error `boom` instead of returning that
result. -/
theorem sse_last_result_counterexample :
    lineEffect sseResultLine = LineEff.retain okJson ∧
    handleSSEResponse [linesStream [sseErrorLine, sseResultLine]] = .error "boom" ∧
    handleSSEResponse [linesStream [sseErrorLine, sseResultLine]] ≠ .ok okJson := by
  refine ⟨rfl, rfl, ?_⟩
  intro h
  rw [show handleSSEResponse [linesStream [sseErrorLine, sseResultLine]]
      = (.error "boom" : Except String Json) from rfl] at h
  exact Except.noConfusion h

/-- C1 (amended): for a stream of complete `data:` lines ending in a
line whose envelope retains the result `v`, if no envelope anywhere in
the stream carries a truthy `error` member and `v` is not JS-falsy,
then the aggregation returns `v` — under every chunking of the byte
stream (the chunk list is universally quantified, constrained only by
its concatenation). -/
theorem sse_last_result_chunking (pre : List (List Char)) (lst : List Char) (v : Json)
    (chunks : List (List Char))
    (hnl : ∀ l ∈ pre, '\n' ∉ l) (hnll : '\n' ∉ lst)
    (hnoerr : ∀ l ∈ pre, (lineEffect l).isReject = false)
    (hlast : lineEffect lst = .retain v)
    (htr : v.truthy = true)
    (hchunks : chunks.flatten = linesStream (pre ++ [lst])) :
    handleSSEResponse chunks = .ok v := by
  rw [handleSSEResponse_eq_runAll, hchunks,
    runAll_last_retain pre lst v hnl hnll hnoerr hlast]
  simp [finishRes, htr]

/-- C1 witness: a progress event then the final result, delivered in
two chunks cut in the middle of the second line's JSON. -/
theorem sse_last_result_chunking_witness :
    handleSSEResponse [(linesStream [sseProgressLine, sseResultLine]).take 57,
      (linesStream [sseProgressLine, sseResultLine]).drop 57] = .ok okJson :=
  sse_last_result_chunking [sseProgressLine] sseResultLine okJson _
    (by decide) (by decide) (by decide) rfl (by decide)
    (by simp [List.take_append_drop])

/-- C2: as soon as a complete line's envelope carries a truthy `error`
member, the aggregation fails with that envelope's message — whatever
result-bearing events preceded it and whatever follows it in the
stream (the suffix `rest` is arbitrary and does not influence the
outcome, which models that it is never read). -/
theorem sse_error_overrides (pre : List (List Char)) (e : List Char)
    (rest : List (List Char)) (m : String) (chunks : List (List Char))
    (hnl : ∀ l ∈ pre, '\n' ∉ l) (hnle : '\n' ∉ e)
    (hpre : ∀ l ∈ pre, (lineEffect l).isReject = false)
    (he : lineEffect e = .reject m)
    (hchunks : chunks.flatten = linesStream (pre ++ e :: rest)) :
    handleSSEResponse chunks = .error m := by
  rw [handleSSEResponse_eq_runAll, hchunks]
  have hsplit : pre ++ e :: rest = (pre ++ [e]) ++ rest := by simp
  rw [hsplit, linesStream_append, runAll]
  have hall : ∀ l ∈ pre ++ [e], '\n' ∉ l := by
    intro l hl
    rcases List.mem_append.mp hl with h | h
    · exact hnl l h
    · rw [List.mem_singleton] at h
      subst h
      exact hnle
  have h1 := splitLines_linesStream (pre ++ [e]) hall
  have happ := splitLines_append (linesStream (pre ++ [e])) (linesStream rest)
  rw [h1] at happ
  simp only [List.nil_append] at happ
  rw [happ]
  rcases processLines_ok_of_no_reject pre none hpre with ⟨r, hr⟩
  have hfirst : processLines none ((pre ++ [e]) ++ (splitLines (linesStream rest)).1)
      = .error m := by
    rw [processLines_append, processLines_append, hr]
    simp [processLines, he]
  rw [hfirst]

/-- C2 witness: a result event, then the `boom` error event, then a
further result event; delivered as two chunks split mid-stream. The
aggregation yields the server's `boom`. -/
theorem sse_error_overrides_witness :
    handleSSEResponse
      [(linesStream [sseResultLine, sseErrorLine, sseNullResultLine]).take 50,
        (linesStream [sseResultLine, sseErrorLine, sseNullResultLine]).drop 50]
      = .error "boom" :=
  sse_error_overrides [sseResultLine] sseErrorLine [sseNullResultLine] "boom" _
    (by decide) (by decide) (by decide) rfl (by simp [List.take_append_drop])

/-- C8 counterexample: a stream whose only envelope carries
`result: null`. The `result` variable is retained (first conjunct:
the line's effect is `retain null`, distinct from `skip`), but the
final `if (result)` treats the retained `null` as absent: the
aggregation fails with the no-data `TransportError` instead of
returning the null result. -/
theorem sse_null_result_counterexample :
    lineEffect sseNullResultLine = LineEff.retain Json.null ∧
    handleSSEResponse [linesStream [sseNullResultLine]]
      = .error "No data received from SSE stream" ∧
    handleSSEResponse [linesStream [sseNullResultLine]] ≠ .ok Json.null := by
  refine ⟨rfl, rfl, ?_⟩
  intro h
  rw [show handleSSEResponse [linesStream [sseNullResultLine]]
      = (.error "No data received from SSE stream" : Except String Json) from rfl] at h
  exact Except.noConfusion h

/-- C8 (amended): a retained final result that is JS-falsy (`null`,
`false`, `0`, `""`) is indistinguishable from no result at stream end:
the aggregation fails with the no-data `TransportError` rather than
returning it. -/
theorem sse_falsy_result_no_data (pre : List (List Char)) (lst : List Char) (v : Json)
    (chunks : List (List Char))
    (hnl : ∀ l ∈ pre, '\n' ∉ l) (hnll : '\n' ∉ lst)
    (hnoerr : ∀ l ∈ pre, (lineEffect l).isReject = false)
    (hlast : lineEffect lst = .retain v)
    (htr : v.truthy = false)
    (hchunks : chunks.flatten = linesStream (pre ++ [lst])) :
    handleSSEResponse chunks = .error "No data received from SSE stream" := by
  rw [handleSSEResponse_eq_runAll, hchunks,
    runAll_last_retain pre lst v hnl hnll hnoerr hlast]
  simp [finishRes, htr]

/-- C8 witness: the single `result: null` stream falls under the
amended statement. -/
theorem sse_falsy_result_no_data_witness :
    handleSSEResponse [linesStream [sseNullResultLine]]
      = .error "No data received from SSE stream" :=
  sse_falsy_result_no_data [] sseNullResultLine Json.null _
    (by simp) (by decide) (by simp) rfl rfl (by simp)

/-- C9: a stream none of whose complete lines has any aggregation
effect (not `data:`-prefixed, unparseable payload, or an envelope that
is not JSON-RPC 2.0 / carries neither member) ends with no retained
result, and the aggregation fails with the no-data `TransportError`. -/
theorem sse_no_jsonrpc_transport_error (lines chunks : List (List Char))
    (hnl : ∀ l ∈ lines, '\n' ∉ l)
    (hskip : ∀ l ∈ lines, (lineEffect l).isSkip = true)
    (hchunks : chunks.flatten = linesStream lines) :
    handleSSEResponse chunks = .error "No data received from SSE stream" := by
  rw [handleSSEResponse_eq_runAll, hchunks, runAll, splitLines_linesStream lines hnl,
    processLines_all_skip lines none hskip]
  rfl

/-- C9 witness: an SSE comment, a non-`data:` field line, a keep-alive
payload that is not JSON, and a JSON payload without the JSON-RPC 2.0
marker. -/
theorem sse_no_jsonrpc_transport_error_witness :
    handleSSEResponse [linesStream nonRpcLines]
      = .error "No data received from SSE stream" :=
  sse_no_jsonrpc_transport_error nonRpcLines [linesStream nonRpcLines]
    (by decide) (by decide) (by simp)

/-! ### Claims about the client operations -/

theorem runCalls_ids (c : ClientState) (calls : List ClientCall) :
    (runCalls c calls).2 = List.range' (c.requestId + 1) calls.length := by
  induction calls generalizing c with
  | nil => rfl
  | cons call rest ih =>
    cases call with
    | initCall r =>
      simp [runCalls, ih, initializeCall_reqId, initializeCall_state_requestId,
        List.range'_succ]
    | listToolsCall cur r =>
      simp [runCalls, ih, listTools_reqId, listTools_state_requestId, List.range'_succ]
    | callToolCall n a r =>
      simp [runCalls, ih, callTool_reqId, callTool_state_requestId, List.range'_succ]

/-- C4: on a freshly constructed client (whatever its configuration and
initial session id), any sequence of request-sending calls — with
arbitrary responses, failures included — consumes exactly the request
ids `1, 2, …, n` in order: strictly increasing from 1, never reused. -/
theorem request_ids_strictly_increasing (cfg : ServerConfig) (sess : Option String)
    (calls : List ClientCall) :
    (runCalls (MCPClient.new cfg sess) calls).2 = List.range' 1 calls.length ∧
    List.Pairwise (· < ·) (runCalls (MCPClient.new cfg sess) calls).2 := by
  have h := runCalls_ids (MCPClient.new cfg sess) calls
  have h0 : (MCPClient.new cfg sess).requestId = 0 := rfl
  rw [h0] at h
  refine ⟨h, ?_⟩
  rw [h]
  exact List.pairwise_lt_range' 1 calls.length

/-- C10: `initialize()` copies a truthy `mcp-session-id` response
header (matched case-insensitively) into the client before it even
looks at the HTTP status or the body, so the session id is `S`
afterwards whether the call succeeds or fails. (The witness
instantiates this on a failing response.) -/
theorem initialize_mutates_session_on_error (c : ClientState) (resp : Response) (S : String)
    (hh : headerGet resp.headers "mcp-session-id" = some S) (hS : S ≠ "") :
    (initializeCall c resp).state.sessionId = some S := by
  rw [initializeCall_state_sessionId, capturedSessionId, hh]
  simp [hS]

/-- C10 witness: a 500 response carrying a session header: the call
fails with the transport error, yet the session id was mutated. -/
theorem initialize_mutates_session_on_error_witness :
    (initializeCall freshClient sessionErrorResponse).state.sessionId = some "sess-12345" ∧
    (initializeCall freshClient sessionErrorResponse).result
      = .error "HTTP 500: Internal Server Error" :=
  ⟨initialize_mutates_session_on_error freshClient sessionErrorResponse "sess-12345"
      rfl (by decide),
    rfl⟩

/-- C3 counterexample: the claim's "no session header ⇒ session id left
unset, session header omitted" fails on an instance constructed with a
caller-supplied session id (as the router does when relaying
`?sessionId=`): after an `initialize()` whose response has no session
header, the session id is still the constructor-supplied one and
subsequent requests do attach the session header. -/
theorem session_unset_counterexample :
    headerGet noSessionJsonResponse.headers "mcp-session-id" = none ∧
    (initializeCall preSessionClient noSessionJsonResponse).state.sessionId
      = some "caller-supplied-session" ∧
    objGet (sendRequest (initializeCall preSessionClient noSessionJsonResponse).state
        "tools/list" (Json.obj []) noSessionJsonResponse).sentHeaders "Mcp-Session-Id"
      = some "caller-supplied-session" :=
  ⟨rfl, rfl, rfl⟩

/-- C3 (amended): a truthy `mcp-session-id: S` response header leaves
the captured session id equal to `S`, and every subsequent
`sendRequest` attaches `Mcp-Session-Id: S`; a response with no session
header leaves the session id *unchanged* — so on a client constructed
without one (and whose configured headers do not themselves configure
`Mcp-Session-Id`) it stays unset and subsequent requests omit the
session header. -/
theorem initialize_session_capture_amended (c : ClientState) (S : String)
    (respS respN resp2 : Response) (m1 m2 : String) (p1 p2 : Json)
    (hS : S ≠ "")
    (hhdr : headerGet respS.headers "mcp-session-id" = some S)
    (hno : headerGet respN.headers "mcp-session-id" = none)
    (hfresh : c.sessionId = none)
    (hcfg : objGet (objOf c.headers) "Mcp-Session-Id" = none) :
    (initializeCall c respS).state.sessionId = some S ∧
    objGet (sendRequest (initializeCall c respS).state m1 p1 resp2).sentHeaders
      "Mcp-Session-Id" = some S ∧
    (initializeCall c respN).state.sessionId = none ∧
    objGet (sendRequest (initializeCall c respN).state m2 p2 resp2).sentHeaders
      "Mcp-Session-Id" = none := by
  have h1 : (initializeCall c respS).state.sessionId = some S := by
    rw [initializeCall_state_sessionId, capturedSessionId, hhdr]
    simp [hS]
  have h3 : (initializeCall c respN).state.sessionId = none := by
    rw [initializeCall_state_sessionId, capturedSessionId, hno]
    exact hfresh
  refine ⟨h1, ?_, h3, ?_⟩
  · rw [sendRequest_sentHeaders]
    exact requestHeaders_session _ S h1 hS
  · rw [sendRequest_sentHeaders, requestHeaders_no_session _ h3,
      initializeCall_state_headers]
    exact hcfg

/-- C3 witness: capture of `sess-12345` from a response header and its
attachment on the next request; and, on a fresh client, a header-less
response leaving the session unset and the next request without a
session header. -/
theorem initialize_session_capture_amended_witness :
    (initializeCall freshClient sessionJsonResponse).state.sessionId = some "sess-12345" ∧
    objGet (sendRequest (initializeCall freshClient sessionJsonResponse).state
        "tools/list" (Json.obj []) noSessionJsonResponse).sentHeaders "Mcp-Session-Id"
      = some "sess-12345" ∧
    (initializeCall freshClient noSessionJsonResponse).state.sessionId = none ∧
    objGet (sendRequest (initializeCall freshClient noSessionJsonResponse).state
        "tools/list" (Json.obj []) noSessionJsonResponse).sentHeaders "Mcp-Session-Id"
      = none :=
  initialize_session_capture_amended freshClient "sess-12345" sessionJsonResponse
    noSessionJsonResponse noSessionJsonResponse "tools/list" "tools/list"
    (Json.obj []) (Json.obj []) (by decide) rfl rfl rfl rfl

/-- C5 counterexample: with a captured session id, a *configured*
`Mcp-Session-Id` header does not take precedence — the assignment
`requestHeaders['Mcp-Session-Id'] = this.sessionId` happens after the
spread of the configured headers, so the captured value is the one
sent. -/
theorem configured_header_precedence_counterexample :
    objGet (requestHeaders clashClient) "Mcp-Session-Id" = some "captured-session" ∧
    ¬ objGet (requestHeaders clashClient) "Mcp-Session-Id" = some "configured-value" := by
  refine ⟨rfl, ?_⟩
  intro h
  rw [show objGet (requestHeaders clashClient) "Mcp-Session-Id"
      = some "captured-session" from rfl] at h
  have := Option.some.inj h
  exact absurd this (by decide)

/-- C5 (amended): configured headers take precedence over the fixed
`Content-Type` (exact-name collision, JS object keys being
case-sensitive), but on the name `Mcp-Session-Id` the precedence is
reversed: once a truthy session id is held, the session header wins
over any configured value. -/
theorem header_precedence_amended (c : ClientState) (s : String)
    (hc : c.sessionId = some s) (hs : s ≠ "") :
    objGet (requestHeaders c) "Mcp-Session-Id" = some s ∧
    objGet (requestHeaders c) "Content-Type" =
      optOr (objGet (objOf c.headers) "Content-Type") (some "application/json") :=
  ⟨requestHeaders_session c s hc hs, requestHeaders_contentType c⟩

/-- C5 witness: a client configuring both `Content-Type` and
`Mcp-Session-Id`, holding a captured session id. -/
theorem header_precedence_amended_witness :
    objGet (requestHeaders clashClient) "Mcp-Session-Id" = some "captured-session" ∧
    objGet (requestHeaders clashClient) "Content-Type" =
      optOr (objGet (objOf clashClient.headers) "Content-Type") (some "application/json") :=
  header_precedence_amended clashClient "captured-session" rfl (by decide)

/-- C6 counterexample: the error raised for a non-2xx JSON response
carries the status code and status text only; the response body (here
`upstream diagnostic body`, well under the 500-character truncation) is
not contained in the error's message — it goes to the diagnostic log
instead. -/
theorem transport_error_body_counterexample :
    plainErrorResponse.ok = false ∧
    plainErrorResponse.textChars.isEmpty = false ∧
    (sendRequest freshClient "tools/list" (Json.obj []) plainErrorResponse).result
      = .error "MCP request failed: HTTP 500: Internal Server Error" ∧
    strContains "MCP request failed: HTTP 500: Internal Server Error"
      (String.mk (plainErrorResponse.textChars.take 500)) = false :=
  ⟨rfl, rfl, rfl, rfl⟩

/-- C6 (amended): a non-2xx, non-event-stream response makes
`sendRequest` fail with `MCP request failed: HTTP <status>:
<statusText>` (and `initialize` with the unwrapped `HTTP <status>:
<statusText>`); when the response has a body, its first 500 characters
are emitted to the diagnostic log — the error itself does not carry
them. -/
theorem non2xx_transport_error (c : ClientState) (method : String) (params : Json)
    (resp : Response)
    (hsse : resp.isSSE = false) (hok : resp.ok = false)
    (hbody : resp.textChars.isEmpty = false) :
    (sendRequest c method params resp).result
      = .error ("MCP request failed: "
          ++ ("HTTP " ++ toString resp.status ++ ": " ++ resp.statusText)) ∧
    ("[MCP] Error response: " ++ String.mk (resp.textChars.take 500))
      ∈ (sendRequest c method params resp).log ∧
    (initializeCall c resp).result
      = .error ("HTTP " ++ toString resp.status ++ ": " ++ resp.statusText) ∧
    ("[MCP] Error response: " ++ String.mk (resp.textChars.take 500))
      ∈ (initializeCall c resp).log := by
  refine ⟨?_, ?_, ?_, ?_⟩ <;>
    simp [sendRequest, initializeCall, hsse, hok, hbody]

/-- C6 witness: the concrete 500 response with a JSON content type and
a body. -/
theorem non2xx_transport_error_witness :
    (sendRequest freshClient "tools/list" (Json.obj []) plainErrorResponse).result
      = .error ("MCP request failed: "
          ++ ("HTTP " ++ toString plainErrorResponse.status ++ ": "
              ++ plainErrorResponse.statusText)) ∧
    ("[MCP] Error response: " ++ String.mk (plainErrorResponse.textChars.take 500))
      ∈ (sendRequest freshClient "tools/list" (Json.obj []) plainErrorResponse).log ∧
    (initializeCall freshClient plainErrorResponse).result
      = .error ("HTTP " ++ toString plainErrorResponse.status ++ ": "
          ++ plainErrorResponse.statusText) ∧
    ("[MCP] Error response: " ++ String.mk (plainErrorResponse.textChars.take 500))
      ∈ (initializeCall freshClient plainErrorResponse).log :=
  non2xx_transport_error freshClient "tools/list" (Json.obj []) plainErrorResponse
    rfl rfl rfl

/-- C7 counterexample: in the spec's `boom` scenario the error raised
by `callTool` is not literally `boom`: the `try/catch` of `sendRequest`
re-wraps it as `MCP request failed: boom`. -/
theorem calltool_boom_counterexample :
    (callTool freshClient "get_weather" (Json.obj []) sseBoomResponse).result
      = .error "MCP request failed: boom" ∧
    "MCP request failed: boom" ≠ "boom" :=
  ⟨rfl, by decide⟩

/-- C7 (amended): whenever the SSE aggregation of the response stream
fails with a message `m` (for an error envelope, the server-supplied
message), `callTool` fails with exactly that message under the fixed
contextual wrapping prefix `MCP request failed: ` — the originating
message is preserved verbatim inside the wrapper. -/
theorem calltool_wraps_sse_error (c : ClientState) (toolName : String) (args : Json)
    (resp : Response) (m : String)
    (hsse : resp.isSSE = true)
    (hagg : handleSSEResponse resp.bodyChunks = .error m) :
    (callTool c toolName args resp).result = .error ("MCP request failed: " ++ m) := by
  simp [callTool, sendRequest, hsse, hagg]

/-- C7 witness: the two-event `boom` stream: `callTool` fails with the
wrapped server-supplied message. -/
theorem calltool_wraps_sse_error_witness :
    (callTool freshClient "get_weather" (Json.obj []) sseBoomResponse).result
      = .error ("MCP request failed: " ++ "boom") :=
  calltool_wraps_sse_error freshClient "get_weather" (Json.obj []) sseBoomResponse
    "boom" rfl rfl
